import Mathlib

/-!
Verification of the retail aggregation and analytical query pipeline
(`retail_pipeline.py`).

The pipeline normalizes raw sales rows into transactions, groups them by
(day, category, region) with pandas `groupby().agg`, stores the aggregate
table, and runs three fixed SQL queries over it through SQLite.

Numeric semantics: monetary amounts are modelled as rationals (the spec
requires exact decimal-safe sums and means); quantities as naturals.
SQLite-specific behaviour that matters here is modelled explicitly:
division by zero yields NULL (`Option.none`), `ROUND(x, 2)` rounds half
away from zero to 2 decimal places, and result-column aliases referenced
in `ORDER BY` / `HAVING` denote the (rounded) select expressions.
-/

/-- A normalized transaction: one row of the input after date parsing.
`orderDate` is the calendar day (days are totally ordered; the ISO date
text stored in SQLite is order-isomorphic to this index). -/
structure Transaction where
  orderId : String
  orderDate : Nat
  category : String
  region : String
  sales : ℚ
  profit : ℚ
  quantity : Nat
deriving DecidableEq

/-- One row of the aggregate table `daily_agg`, with the column names the
source assigns after the groupby (lines 60-65 of `retail_pipeline.py`). -/
structure AggregateRow where
  date : Nat
  category : String
  region : String
  total_sales : ℚ
  avg_sales : ℚ
  total_profit : ℚ
  avg_profit : ℚ
  total_quantity : Nat
  unique_orders : Nat
deriving DecidableEq

/-- The groupby key: `(order_day, Category, Region)`. -/
def txKey (t : Transaction) : Nat × String × String :=
  (t.orderDate, t.category, t.region)

/-- Lexicographic order on groupby keys: pandas `groupby` sorts the group
keys ascending by (day, category, region). -/
def keyLe (a b : Nat × String × String) : Prop :=
  a.1 < b.1 ∨ (a.1 = b.1 ∧ (a.2.1 < b.2.1 ∨ (a.2.1 = b.2.1 ∧ a.2.2 ≤ b.2.2)))

instance : DecidableRel keyLe := fun a b => by
  unfold keyLe; infer_instance

/-- The transactions contributing to one group. -/
def groupTxns (xs : List Transaction) (k : Nat × String × String) : List Transaction :=
  xs.filter (fun t => txKey t = k)

/-- The aggregate row of one group: `Sales: [sum, mean]`,
`Profit: [sum, mean]`, `Quantity: sum`, `Order ID: nunique`.
pandas `mean` is the sum divided by the number of contributing rows;
`nunique` is the number of distinct order ids. -/
def aggRow (xs : List Transaction) (k : Nat × String × String) : AggregateRow :=
  let g := groupTxns xs k
  { date := k.1
    category := k.2.1
    region := k.2.2
    total_sales := (g.map Transaction.sales).sum
    avg_sales := (g.map Transaction.sales).sum / (g.length : ℚ)
    total_profit := (g.map Transaction.profit).sum
    avg_profit := (g.map Transaction.profit).sum / (g.length : ℚ)
    total_quantity := (g.map Transaction.quantity).sum
    unique_orders := ((g.map Transaction.orderId).dedup).length }

/-- The aggregate table: one row per distinct key, keys sorted ascending
(pandas `groupby` default `sort=True`). -/
def daily_agg (xs : List Transaction) : List AggregateRow :=
  (List.insertionSort keyLe ((xs.map txKey).dedup)).map (aggRow xs)

/-- SQLite `ROUND(q, 2)`: half away from zero, at 2 decimal places. -/
def round2 (q : ℚ) : ℚ :=
  (if 0 ≤ q then ((⌊q * 100 + 1/2⌋ : ℤ) : ℚ) else ((⌈q * 100 - 1/2⌉ : ℤ) : ℚ)) / 100

/-- SQLite division: `p / s` is NULL when `s = 0` (no error is raised). -/
def sqliteDiv (p s : ℚ) : Option ℚ :=
  if s = 0 then none else some (p / s)

/-- `ROUND(SUM(total_profit) / SUM(total_sales) * 100, 2)`: `ROUND`
applied to NULL is NULL. -/
def marginPercent (p s : ℚ) : Option ℚ :=
  (sqliteDiv p s).map (fun m => round2 (m * 100))

/-- Result row of query 1 (top categories by revenue). -/
structure Q1Row where
  category : String
  revenue : ℚ
  profit : ℚ
  margin_percent : Option ℚ
deriving DecidableEq

/-- Result row of query 2 (daily trend). -/
structure Q2Row where
  date : Nat
  daily_revenue : ℚ
  daily_items : Nat
  records_count : Nat
deriving DecidableEq

/-- Result row of query 3 (top regions by margin). -/
structure Q3Row where
  region : String
  revenue : ℚ
  profit : ℚ
  margin_percent : Option ℚ
deriving DecidableEq

/-- `SUM(total_sales)` for one category group of query 1. -/
def catSales (tbl : List AggregateRow) (c : String) : ℚ :=
  ((tbl.filter (fun r => r.category = c)).map AggregateRow.total_sales).sum

/-- `SUM(total_profit)` for one category group of query 1. -/
def catProfit (tbl : List AggregateRow) (c : String) : ℚ :=
  ((tbl.filter (fun r => r.category = c)).map AggregateRow.total_profit).sum

/-- The select clause of query 1 for one category. -/
def q1row (tbl : List AggregateRow) (c : String) : Q1Row :=
  { category := c
    revenue := round2 (catSales tbl c)
    profit := round2 (catProfit tbl c)
    margin_percent := marginPercent (catProfit tbl c) (catSales tbl c) }

/-- `ORDER BY revenue DESC`: the alias `revenue` denotes the rounded sum. -/
def q1le (a b : Q1Row) : Prop := b.revenue ≤ a.revenue

instance : DecidableRel q1le := fun a b => by
  unfold q1le; infer_instance

instance : IsTotal Q1Row q1le :=
  ⟨fun a b => le_total b.revenue a.revenue⟩

instance : IsTrans Q1Row q1le :=
  ⟨fun _ _ _ h1 h2 => le_trans h2 h1⟩

/-- Lexicographic order on the character sequences of two strings: the
TEXT ordering SQLite sorts and groups by (`String.lt` is exactly
`List.lt` on `.data`, and this is the matching large-or-equal order). -/
def strLe (a b : String) : Prop := a.data ≤ b.data

instance : DecidableRel strLe := fun a b =>
  inferInstanceAs (Decidable (a.data ≤ b.data))

/-- The category groups of query 1, in SQLite `GROUP BY` output order
(sorted ascending by the grouping key). -/
def cats (tbl : List AggregateRow) : List String :=
  List.insertionSort strLe ((tbl.map AggregateRow.category).dedup)

/-- Query 1 before `ORDER BY` / `LIMIT`. -/
def q1base (tbl : List AggregateRow) : List Q1Row :=
  (cats tbl).map (q1row tbl)

/-- Query 1: top 5 categories by revenue. -/
def query1 (tbl : List AggregateRow) : List Q1Row :=
  (List.insertionSort q1le (q1base tbl)).take 5

/-- `SUM(total_sales)` for one date group of query 2. -/
def dateSales (tbl : List AggregateRow) (d : Nat) : ℚ :=
  ((tbl.filter (fun r => r.date = d)).map AggregateRow.total_sales).sum

/-- `SUM(total_quantity)` for one date group of query 2. -/
def dateItems (tbl : List AggregateRow) (d : Nat) : Nat :=
  ((tbl.filter (fun r => r.date = d)).map AggregateRow.total_quantity).sum

/-- The select clause of query 2 for one date. -/
def q2row (tbl : List AggregateRow) (d : Nat) : Q2Row :=
  { date := d
    daily_revenue := dateSales tbl d
    daily_items := dateItems tbl d
    records_count := (tbl.filter (fun r => r.date = d)).length }

/-- `ORDER BY date DESC`. -/
def q2le (a b : Q2Row) : Prop := b.date ≤ a.date

instance : DecidableRel q2le := fun a b => by
  unfold q2le; infer_instance

/-- The date groups of query 2, ascending. -/
def dates (tbl : List AggregateRow) : List Nat :=
  List.insertionSort (fun a b : Nat => a ≤ b) ((tbl.map AggregateRow.date).dedup)

/-- Query 2: daily trend, most recent 7 days. -/
def query2 (tbl : List AggregateRow) : List Q2Row :=
  (List.insertionSort q2le ((dates tbl).map (q2row tbl))).take 7

/-- `SUM(total_sales)` for one region group of query 3. -/
def regSales (tbl : List AggregateRow) (rg : String) : ℚ :=
  ((tbl.filter (fun r => r.region = rg)).map AggregateRow.total_sales).sum

/-- `SUM(total_profit)` for one region group of query 3. -/
def regProfit (tbl : List AggregateRow) (rg : String) : ℚ :=
  ((tbl.filter (fun r => r.region = rg)).map AggregateRow.total_profit).sum

/-- The select clause of query 3 for one region. -/
def q3row (tbl : List AggregateRow) (rg : String) : Q3Row :=
  { region := rg
    revenue := round2 (regSales tbl rg)
    profit := round2 (regProfit tbl rg)
    margin_percent := marginPercent (regProfit tbl rg) (regSales tbl rg) }

/-- Order on nullable values: SQLite sorts NULL below every value. -/
def optLe (x y : Option ℚ) : Prop :=
  match x, y with
  | none, _ => True
  | some _, none => False
  | some a, some b => a ≤ b

instance : DecidableRel optLe := fun x y =>
  match x, y with
  | none, _ => isTrue trivial
  | some _, none => isFalse (fun h => h)
  | some a, some b => inferInstanceAs (Decidable (a ≤ b))

/-- `ORDER BY margin_percent DESC`: the alias denotes the rounded ratio. -/
def q3le (a b : Q3Row) : Prop := optLe b.margin_percent a.margin_percent

instance : DecidableRel q3le := fun a b => by
  unfold q3le; infer_instance

/-- The region groups of query 3, in `GROUP BY` output order. -/
def regs (tbl : List AggregateRow) : List String :=
  List.insertionSort strLe ((tbl.map AggregateRow.region).dedup)

/-- Query 3 before `HAVING` / `ORDER BY` / `LIMIT`. -/
def q3base (tbl : List AggregateRow) : List Q3Row :=
  (regs tbl).map (q3row tbl)

/-- Query 3: `HAVING revenue > 0` (the rounded alias), order by margin
descending, top 3. -/
def query3 (tbl : List AggregateRow) : List Q3Row :=
  (List.insertionSort q3le ((q3base tbl).filter (fun r => 0 < r.revenue))).take 3

/-! ### Helper lemmas about the aggregation -/

theorem sum_map_ite_key {M : Type} [AddCommMonoid M] {κ : Type} [DecidableEq κ] (v : M) (a : κ) :
    ∀ ks : List κ, ks.Nodup → a ∈ ks →
      (ks.map (fun k => if a = k then v else 0)).sum = v := by
  intro ks
  induction ks with
  | nil => intro _ ha; cases ha
  | cons k t ih =>
    intro hnd ha
    obtain ⟨hk, hnd'⟩ := List.nodup_cons.mp hnd
    by_cases hak : a = k
    · subst hak
      have hz : ((t.map (fun k => if a = k then v else 0)).sum) = 0 := by
        apply List.sum_eq_zero
        intro x hx
        obtain ⟨b, hb, hbx⟩ := List.mem_map.mp hx
        have : a ≠ b := fun hab => hk (hab ▸ hb)
        simp [← hbx, this]
      simp [hz]
    · have ha' : a ∈ t := by
        cases List.mem_cons.mp ha with
        | inl h => exact absurd h hak
        | inr h => exact h
      simp [hak, ih hnd' ha']

theorem groupTxns_nil (k : Nat × String × String) : groupTxns [] k = [] := rfl

theorem groupTxns_cons (x : Transaction) (xs : List Transaction) (k : Nat × String × String) :
    groupTxns (x :: xs) k = if txKey x = k then x :: groupTxns xs k else groupTxns xs k := by
  simp [groupTxns, List.filter_cons]

theorem sum_groups_aux {M : Type} [AddCommMonoid M] (f : Transaction → M)
    (ks : List (Nat × String × String)) (hnd : ks.Nodup) :
    ∀ xs : List Transaction, (∀ a ∈ xs, txKey a ∈ ks) →
      (ks.map (fun k => ((groupTxns xs k).map f).sum)).sum = (xs.map f).sum := by
  intro xs
  induction xs with
  | nil =>
    intro _
    simp [groupTxns_nil]
  | cons x t ih =>
    intro hcov
    have hx : txKey x ∈ ks := hcov x (List.mem_cons_self x t)
    have hsplit : (fun k => ((groupTxns (x :: t) k).map f).sum)
        = fun k => (if txKey x = k then f x else 0) + ((groupTxns t k).map f).sum := by
      funext k
      rw [groupTxns_cons]
      by_cases hk : txKey x = k <;> simp [hk]
    rw [hsplit, List.sum_map_add, sum_map_ite_key (f x) (txKey x) ks hnd hx,
      ih (fun a ha => hcov a (List.mem_cons_of_mem x ha))]
    simp

theorem daily_agg_conserves {M : Type} [AddCommMonoid M] (f : Transaction → M)
    (g : AggregateRow → M) (h : ∀ xs k, g (aggRow xs k) = ((groupTxns xs k).map f).sum)
    (xs : List Transaction) :
    ((daily_agg xs).map g).sum = (xs.map f).sum := by
  unfold daily_agg
  rw [List.map_map,
    ((List.perm_insertionSort keyLe ((xs.map txKey).dedup)).map (g ∘ aggRow xs)).sum_eq]
  have hco : (g ∘ aggRow xs) = fun k => ((groupTxns xs k).map f).sum := funext (h xs)
  rw [hco]
  exact sum_groups_aux f ((xs.map txKey).dedup) (List.nodup_dedup (xs.map txKey)) xs
    (fun a ha => List.mem_dedup.mpr (List.mem_map_of_mem txKey ha))

theorem mem_daily_agg {xs : List Transaction} {row : AggregateRow} (h : row ∈ daily_agg xs) :
    ∃ k, row = aggRow xs k ∧ (row.date, row.category, row.region) = k ∧ groupTxns xs k ≠ [] := by
  unfold daily_agg at h
  obtain ⟨k, hk, hrow⟩ := List.mem_map.mp h
  have hk2 : k ∈ (xs.map txKey).dedup := (List.mem_insertionSort keyLe).mp hk
  obtain ⟨t, ht, htk⟩ := List.mem_map.mp (List.mem_dedup.mp hk2)
  refine ⟨k, hrow.symm, ?_, ?_⟩
  · rw [← hrow]; rfl
  · intro hnil
    have htg : t ∈ groupTxns xs k := by
      simp [groupTxns, List.mem_filter, ht, htk]
    rw [hnil] at htg
    cases htg

/-! ### Helper lemmas about rounding and the queries -/

theorem round2_zero : round2 0 = 0 := by
  norm_num [round2]

theorem round2_nonpos {q : ℚ} (hq : q ≤ 0) : round2 q ≤ 0 := by
  unfold round2
  rcases lt_or_eq_of_le hq with hlt | heq
  · rw [if_neg (not_le.mpr hlt)]
    have hc : (⌈q * 100 - 1/2⌉ : ℤ) ≤ 0 := by
      rw [Int.ceil_le]
      push_cast
      nlinarith
    have hc' : ((⌈q * 100 - 1/2⌉ : ℤ) : ℚ) ≤ 0 := by exact_mod_cast hc
    linarith [div_nonpos_of_nonpos_of_nonneg hc' (by norm_num : (0:ℚ) ≤ 100)]
  · rw [heq]
    norm_num

theorem regSales_ne_zero_of_round2_pos {s : ℚ} (h : 0 < round2 s) : s ≠ 0 := by
  intro hs
  rw [hs, round2_zero] at h
  exact lt_irrefl 0 h

theorem mem_query1 {tbl : List AggregateRow} {row : Q1Row} (h : row ∈ query1 tbl) :
    row = q1row tbl row.category ∧ row.category ∈ tbl.map AggregateRow.category := by
  unfold query1 at h
  have h2 := List.mem_of_mem_take h
  have h3 := (List.mem_insertionSort q1le).mp h2
  obtain ⟨c, hc, hr⟩ := List.mem_map.mp h3
  have hcat : row.category = c := by rw [← hr]; rfl
  constructor
  · rw [hcat, hr]
  · rw [hcat]
    exact List.mem_dedup.mp ((List.mem_insertionSort strLe).mp hc)

theorem mem_query3 {tbl : List AggregateRow} {row : Q3Row} (h : row ∈ query3 tbl) :
    row = q3row tbl row.region ∧ 0 < row.revenue ∧ row.region ∈ tbl.map AggregateRow.region := by
  unfold query3 at h
  have h2 := List.mem_of_mem_take h
  have h3 := (List.mem_insertionSort q3le).mp h2
  have h4 := List.mem_filter.mp h3
  obtain ⟨c, hc, hr⟩ := List.mem_map.mp h4.1
  have hreg : row.region = c := by rw [← hr]; rfl
  refine ⟨by rw [hreg, hr], by exact_mod_cast of_decide_eq_true h4.2, ?_⟩
  rw [hreg]
  exact List.mem_dedup.mp ((List.mem_insertionSort strLe).mp hc)

theorem filter_insertionSort_eq {α : Type} (r : α → α → Prop) [DecidableRel r] (l : List α)
    (p : α → Bool) (hp : ∀ a b, p a = true → p b = true → r a b) :
    (List.insertionSort r l).filter p = l.filter p := by
  have h1 : (l.filter p).Pairwise r :=
    List.pairwise_of_forall_mem_list
      (fun a ha b hb => hp a b (List.of_mem_filter ha) (List.of_mem_filter hb))
  have h2 : List.Sublist (l.filter p) (List.insertionSort r l) :=
    List.sublist_insertionSort h1 (List.filter_sublist l)
  have h3 : ((List.insertionSort r l).filter p).Perm (l.filter p) :=
    (List.perm_insertionSort r l).filter p
  have h4 : List.Sublist (l.filter p) ((List.insertionSort r l).filter p) := by
    have h5 := h2.filter p
    rwa [List.filter_filter, show (fun a => p a && p a) = p from funext (fun a => Bool.and_self (p a))] at h5
  exact (h4.eq_of_length h3.length_eq.symm).symm

/-! ### Columnar store -/

/-- A cell of the columnar representation: each AggregateRow field is a
day index, a string, or a decimal value. -/
inductive Cell where
  | nat : Nat → Cell
  | str : String → Cell
  | rat : ℚ → Cell
deriving DecidableEq

/-- Failures of the columnar store: truncated stream, mismatched schema
(wrong number or type of columns), or a decompression failure. -/
inductive StorageError where
  | truncated : StorageError
  | schemaMismatch : StorageError
  | decompression : StorageError
deriving DecidableEq

/-- Lossless run-length compression of one column. -/
def rleEncode {α : Type} [DecidableEq α] : List α → List (Nat × α)
  | [] => []
  | c :: rest =>
    match rleEncode rest with
    | [] => [(1, c)]
    | (n, d) :: tail => if c = d then (n + 1, d) :: tail else (1, c) :: (n, d) :: tail

/-- Decompression of one run-length encoded column. -/
def rleDecode {α : Type} : List (Nat × α) → List α
  | [] => []
  | (n, a) :: rest => List.replicate n a ++ rleDecode rest

/-- Modelled from the spec: the repository writes the aggregate table with
an external compressed-columnar writer (`to_parquet`, compression snappy)
and contains no reader, so §4.4's serialization contract is modelled here.
`serialize` lays the table out column by column in the AggregateRow
attribute order of §3 and compresses each column losslessly. -/
def serialize (rows : List AggregateRow) : List (List (Nat × Cell)) :=
  [rleEncode (rows.map (fun r => Cell.nat r.date)),
   rleEncode (rows.map (fun r => Cell.str r.category)),
   rleEncode (rows.map (fun r => Cell.str r.region)),
   rleEncode (rows.map (fun r => Cell.rat r.total_sales)),
   rleEncode (rows.map (fun r => Cell.rat r.avg_sales)),
   rleEncode (rows.map (fun r => Cell.rat r.total_profit)),
   rleEncode (rows.map (fun r => Cell.rat r.avg_profit)),
   rleEncode (rows.map (fun r => Cell.nat r.total_quantity)),
   rleEncode (rows.map (fun r => Cell.nat r.unique_orders))]

/-- Reassemble rows from the nine decompressed columns; columns of
unequal length or with cells of the wrong type are a schema mismatch. -/
def rebuildRows : List Cell → List Cell → List Cell → List Cell → List Cell → List Cell →
    List Cell → List Cell → List Cell → Except StorageError (List AggregateRow)
  | [], [], [], [], [], [], [], [], [] => Except.ok []
  | Cell.nat d :: c1, Cell.str ct :: c2, Cell.str rg :: c3, Cell.rat ts :: c4,
      Cell.rat avs :: c5, Cell.rat tp :: c6, Cell.rat avp :: c7, Cell.nat tq :: c8,
      Cell.nat uo :: c9 =>
    match rebuildRows c1 c2 c3 c4 c5 c6 c7 c8 c9 with
    | Except.ok rest => Except.ok
        ({ date := d, category := ct, region := rg, total_sales := ts, avg_sales := avs,
           total_profit := tp, avg_profit := avp, total_quantity := tq,
           unique_orders := uo } :: rest)
    | Except.error e => Except.error e
  | _, _, _, _, _, _, _, _, _ => Except.error StorageError.schemaMismatch

/-- Modelled from the spec: §4.4's `deserialize`, the inverse direction
the repository delegates to the external reader. Decompresses each column
and rebuilds the rows; anything but exactly nine well-typed columns of
equal length is a `StorageError`. -/
def deserialize (cols : List (List (Nat × Cell))) : Except StorageError (List AggregateRow) :=
  match cols with
  | [a, b, c, d, e, f, g, h, i] =>
    rebuildRows (rleDecode a) (rleDecode b) (rleDecode c) (rleDecode d) (rleDecode e)
      (rleDecode f) (rleDecode g) (rleDecode h) (rleDecode i)
  | _ => Except.error StorageError.schemaMismatch

theorem rleDecode_rleEncode {α : Type} [DecidableEq α] :
    ∀ l : List α, rleDecode (rleEncode l) = l
  | [] => rfl
  | c :: rest => by
    have ih := rleDecode_rleEncode rest
    unfold rleEncode
    cases henc : rleEncode rest with
    | nil =>
      rw [henc] at ih
      simp [rleDecode, ← ih]
    | cons p tail =>
      obtain ⟨n, d⟩ := p
      rw [henc] at ih
      dsimp only
      by_cases hcd : c = d
      · subst hcd
        simp only [if_pos rfl, rleDecode, List.replicate_succ, List.cons_append]
        rw [← List.cons_append]
        simp [rleDecode] at ih
        simp [ih]
      · rw [if_neg hcd]
        simp [rleDecode] at ih
        simp [rleDecode, ih]

theorem rebuildRows_map : ∀ rows : List AggregateRow,
    rebuildRows (rows.map (fun r => Cell.nat r.date)) (rows.map (fun r => Cell.str r.category))
      (rows.map (fun r => Cell.str r.region)) (rows.map (fun r => Cell.rat r.total_sales))
      (rows.map (fun r => Cell.rat r.avg_sales)) (rows.map (fun r => Cell.rat r.total_profit))
      (rows.map (fun r => Cell.rat r.avg_profit)) (rows.map (fun r => Cell.nat r.total_quantity))
      (rows.map (fun r => Cell.nat r.unique_orders)) = Except.ok rows
  | [] => rfl
  | r :: rest => by
    have ih := rebuildRows_map rest
    simp only [List.map_cons]
    unfold rebuildRows
    rw [ih]

theorem optLe_total : ∀ x y : Option ℚ, optLe x y ∨ optLe y x
  | none, _ => Or.inl trivial
  | some _, none => Or.inr trivial
  | some a, some b => le_total a b

theorem optLe_trans : ∀ {x y z : Option ℚ}, optLe x y → optLe y z → optLe x z
  | none, _, _, _, _ => trivial
  | some _, none, _, h, _ => h.elim
  | some _, some _, none, _, h => h.elim
  | some a, some b, some c, h1, h2 => @le_trans ℚ _ a b c h1 h2

instance : IsTotal Q3Row q3le :=
  ⟨fun a b => optLe_total b.margin_percent a.margin_percent⟩

instance : IsTrans Q3Row q3le :=
  ⟨fun _ _ _ h1 h2 => optLe_trans h2 h1⟩

/-! ### Concrete inputs used by witnesses and counterexamples -/

/-- A one-transaction input set. -/
def xsW : List Transaction := [⟨"O1", 0, "A", "E", 10, 2, 1⟩]

/-- The single aggregate row `xsW` produces. -/
def rowW : AggregateRow := aggRow xsW (0, "A", "E")

/-- A one-row aggregate table with positive revenue. -/
def tblW : List AggregateRow := [⟨0, "A", "E", 10, 10, 2, 2, 1, 1⟩]

/-- The query-1 row over `tblW`. -/
def q1W : Q1Row := ⟨"A", 10, 2, some 20⟩

/-- The query-3 row over `tblW`. -/
def q3W : Q3Row := ⟨"E", 10, 2, some 20⟩

/-- A table whose only group has revenue 0 and nonzero profit. -/
def tblZ : List AggregateRow := [⟨0, "A", "E", 0, 0, 5, 5, 1, 1⟩]

/-- A table whose only region has a tiny positive revenue (0.004), which
rounds to 0.00 at 2 decimal places. -/
def tblS : List AggregateRow := [⟨0, "A", "E", 1/250, 1/250, 1/500, 1/500, 1, 1⟩]

/-- A table with two categories whose revenues 10.001 and 10.004 differ
but round to the same value 10.00. -/
def tblO : List AggregateRow :=
  [⟨0, "A", "E", 10001/1000, 0, 1, 1, 1, 1⟩, ⟨0, "B", "W", 10004/1000, 0, 1, 1, 1, 1⟩]

/-- A table with one region of negative revenue and one of positive. -/
def tblN : List AggregateRow :=
  [⟨0, "A", "E", -5, -5, 1, 1, 1, 1⟩, ⟨1, "A", "W", 10, 10, 2, 2, 1, 1⟩]

theorem daily_agg_xsW_eval : daily_agg xsW = [rowW] := by
  norm_num [daily_agg, xsW, txKey, rowW]

theorem query1_tblW_eval : query1 tblW = [q1W] := by
  norm_num [query1, q1base, cats, tblW, q1row, q1W, catSales, catProfit, marginPercent,
    sqliteDiv, round2]

theorem query3_tblW_eval : query3 tblW = [q3W] := by
  norm_num [query3, q3base, regs, tblW, q3row, q3W, regSales, regProfit, marginPercent,
    sqliteDiv, round2]

theorem strLe_EW : strLe "E" "W" := by decide

theorem strLe_AB : strLe "A" "B" := by decide

theorem str_ne_WE : ("W" : String) ≠ "E" := by decide

theorem str_ne_EW : ("E" : String) ≠ "W" := by decide

theorem str_ne_AB : ("A" : String) ≠ "B" := by decide

theorem str_ne_BA : ("B" : String) ≠ "A" := by decide

theorem query3_tblN_eval : query3 tblN = [q3row tblN "W"] := by
  norm_num [query3, q3base, regs, tblN, q3row, regSales, regProfit, marginPercent,
    sqliteDiv, round2, strLe_EW, str_ne_WE, str_ne_EW]

/-! ### The claims -/

/-- C1 (corrected): for the top-categories and top-regions queries,
margin_percent equals the 2-decimal rounding of profit / revenue * 100
computed from the full-precision sums when the group's revenue sum is
non-zero; when the revenue sum is 0 SQLite's division yields NULL, so
margin_percent is NULL (`none`), not 0 — and no division error is raised
(the query is total). In query 3 the `HAVING revenue > 0` filter
guarantees a non-zero revenue sum, so margin_percent is always defined
there. -/
theorem c1_margin_of_zero_revenue (tbl : List AggregateRow) (row : Q1Row)
    (h1 : row ∈ query1 tbl) (r3 : Q3Row) (h3 : r3 ∈ query3 tbl) :
    row.margin_percent = (if catSales tbl row.category = 0 then none
      else some (round2 (catProfit tbl row.category / catSales tbl row.category * 100))) ∧
      regSales tbl r3.region ≠ 0 ∧
      r3.margin_percent = some (round2 (regProfit tbl r3.region / regSales tbl r3.region * 100)) := by
  obtain ⟨hrow, -⟩ := mem_query1 h1
  obtain ⟨hr3, hpos, -⟩ := mem_query3 h3
  have hrev : r3.revenue = round2 (regSales tbl r3.region) :=
    (congrArg Q3Row.revenue hr3).trans rfl
  have hne : regSales tbl r3.region ≠ 0 :=
    regSales_ne_zero_of_round2_pos (hrev ▸ hpos)
  refine ⟨?_, hne, ?_⟩
  · have hm : row.margin_percent
        = marginPercent (catProfit tbl row.category) (catSales tbl row.category) :=
      (congrArg Q1Row.margin_percent hrow).trans rfl
    rw [hm]
    unfold marginPercent sqliteDiv
    by_cases hs : catSales tbl row.category = 0
    · simp [hs]
    · simp [hs]
  · have hm : r3.margin_percent
        = marginPercent (regProfit tbl r3.region) (regSales tbl r3.region) :=
      (congrArg Q3Row.margin_percent hr3).trans rfl
    rw [hm]
    unfold marginPercent sqliteDiv
    simp [hne]

/-- Witness for C1 at the concrete table `tblW`. -/
theorem c1_witness :
    q1W ∈ query1 tblW ∧ q3W ∈ query3 tblW ∧
      (q1W.margin_percent = (if catSales tblW q1W.category = 0 then none
          else some (round2 (catProfit tblW q1W.category / catSales tblW q1W.category * 100))) ∧
        regSales tblW q3W.region ≠ 0 ∧
        q3W.margin_percent
          = some (round2 (regProfit tblW q3W.region / regSales tblW q3W.region * 100))) := by
  have m1 : q1W ∈ query1 tblW := by
    rw [query1_tblW_eval]; exact List.mem_singleton_self q1W
  have m3 : q3W ∈ query3 tblW := by
    rw [query3_tblW_eval]; exact List.mem_singleton_self q3W
  exact ⟨m1, m3, c1_margin_of_zero_revenue tblW q1W m1 q3W m3⟩

/-- Counterexample for C1 as stated: over `tblZ` (one group, revenue sum 0,
profit sum 5) query 1 returns margin_percent NULL, not 0. -/
theorem c1_counterexample :
    query1 tblZ = [{ category := "A", revenue := 0, profit := 5, margin_percent := none }] ∧
      (none : Option ℚ) ≠ some 0 := by
  constructor
  · norm_num [query1, q1base, cats, tblZ, q1row, catSales, catProfit, marginPercent,
      sqliteDiv, round2]
  · decide

/-- C2 (spec-modelled, §4.4): deserializing the serialized compressed
columnar representation of any AggregateRow collection yields the
collection back field-for-field; with exact decimals no tolerance is
needed. -/
theorem c2_roundtrip (rows : List AggregateRow) :
    deserialize (serialize rows) = Except.ok rows := by
  unfold serialize deserialize
  dsimp only
  simp only [rleDecode_rleEncode]
  exact rebuildRows_map rows

/-- C3: aggregation conserves the sums of sales, profit and quantity. -/
theorem c3_conservation (xs : List Transaction) :
    ((daily_agg xs).map AggregateRow.total_sales).sum = (xs.map Transaction.sales).sum ∧
      ((daily_agg xs).map AggregateRow.total_profit).sum = (xs.map Transaction.profit).sum ∧
      ((daily_agg xs).map AggregateRow.total_quantity).sum = (xs.map Transaction.quantity).sum :=
  ⟨daily_agg_conserves Transaction.sales AggregateRow.total_sales (fun _ _ => rfl) xs,
   daily_agg_conserves Transaction.profit AggregateRow.total_profit (fun _ _ => rfl) xs,
   daily_agg_conserves Transaction.quantity AggregateRow.total_quantity (fun _ _ => rfl) xs⟩

/-- C4: on every aggregate row, avg_sales is total_sales divided by the
number of contributing transactions of its (date, category, region)
group — the contributing-row count, not unique_order_count and not
total_quantity; likewise avg_profit. -/
theorem c4_mean_denominator (xs : List Transaction) (row : AggregateRow)
    (h : row ∈ daily_agg xs) :
    row.avg_sales = row.total_sales
        / ((groupTxns xs (row.date, row.category, row.region)).length : ℚ) ∧
      row.avg_profit = row.total_profit
        / ((groupTxns xs (row.date, row.category, row.region)).length : ℚ) := by
  obtain ⟨k, hrow, hkey, -⟩ := mem_daily_agg h
  subst hrow
  rw [hkey]
  exact ⟨rfl, rfl⟩

/-- Witness for C4 at the one-transaction input `xsW`. -/
theorem c4_witness :
    rowW ∈ daily_agg xsW ∧
      (rowW.avg_sales = rowW.total_sales
          / ((groupTxns xsW (rowW.date, rowW.category, rowW.region)).length : ℚ) ∧
        rowW.avg_profit = rowW.total_profit
          / ((groupTxns xsW (rowW.date, rowW.category, rowW.region)).length : ℚ)) := by
  have m : rowW ∈ daily_agg xsW := by
    rw [daily_agg_xsW_eval]; exact List.mem_singleton_self rowW
  exact ⟨m, c4_mean_denominator xsW rowW m⟩

/-- C5 (corrected): values are indeed rounded to 2 decimals in the result
columns, but the `ORDER BY revenue` of query 1, the `HAVING revenue > 0`
filter of query 3 and the `ORDER BY margin_percent` of query 3 resolve
the aliases to those rounded select expressions, so they operate on the
already-rounded values, not on the full-precision sums: every returned
query-3 region has positive *rounded* revenue, and the orderings `q1le` /
`q3le` compare the rounded fields. -/
theorem c5_rounded_aliases (tbl : List AggregateRow) (r1 : Q1Row) (h1 : r1 ∈ query1 tbl)
    (r3 : Q3Row) (h3 : r3 ∈ query3 tbl) :
    r1.revenue = round2 (catSales tbl r1.category) ∧
      r1.profit = round2 (catProfit tbl r1.category) ∧
      r3.revenue = round2 (regSales tbl r3.region) ∧
      0 < round2 (regSales tbl r3.region) ∧
      List.Sorted q1le (query1 tbl) ∧ List.Sorted q3le (query3 tbl) := by
  obtain ⟨hr1, -⟩ := mem_query1 h1
  obtain ⟨hr3, hpos, -⟩ := mem_query3 h3
  have hrev : r3.revenue = round2 (regSales tbl r3.region) :=
    (congrArg Q3Row.revenue hr3).trans rfl
  refine ⟨(congrArg Q1Row.revenue hr1).trans rfl, (congrArg Q1Row.profit hr1).trans rfl,
    hrev, hrev ▸ hpos, ?_, ?_⟩
  · unfold query1
    exact List.Pairwise.sublist (List.take_sublist 5 _) (List.sorted_insertionSort q1le _)
  · unfold query3
    exact List.Pairwise.sublist (List.take_sublist 3 _) (List.sorted_insertionSort q3le _)

/-- Witness for C5 at the concrete table `tblW`. -/
theorem c5_witness :
    q1W ∈ query1 tblW ∧ q3W ∈ query3 tblW ∧
      (q1W.revenue = round2 (catSales tblW q1W.category) ∧
        q1W.profit = round2 (catProfit tblW q1W.category) ∧
        q3W.revenue = round2 (regSales tblW q3W.region) ∧
        0 < round2 (regSales tblW q3W.region) ∧
        List.Sorted q1le (query1 tblW) ∧ List.Sorted q3le (query3 tblW)) := by
  have m1 : q1W ∈ query1 tblW := by
    rw [query1_tblW_eval]; exact List.mem_singleton_self q1W
  have m3 : q3W ∈ query3 tblW := by
    rw [query3_tblW_eval]; exact List.mem_singleton_self q3W
  exact ⟨m1, m3, c5_rounded_aliases tblW q1W m1 q3W m3⟩

/-- Counterexample for C5 as stated: over `tblS` the only region has
full-precision revenue 0.004 > 0 yet is excluded by `HAVING revenue > 0`
because the alias is the rounded value 0.00; over `tblO` category "B" has
the larger full-precision revenue (10.004 vs 10.001) yet query 1 returns
"A" first, because the ordering compares the equal rounded values 10.00
and falls back to the stable base order. -/
theorem c5_counterexample :
    0 < regSales tblS "E" ∧ query3 tblS = [] ∧
      catSales tblO "A" < catSales tblO "B" ∧
      (query1 tblO).map Q1Row.category = ["A", "B"] := by
  refine ⟨by norm_num [regSales, tblS], ?_, by norm_num [catSales, tblO, str_ne_AB, str_ne_BA], ?_⟩
  · norm_num [query3, q3base, regs, tblS, q3row, regSales, regProfit, marginPercent,
      sqliteDiv, round2]
  · norm_num [query1, q1base, cats, tblO, q1row, catSales, catProfit, marginPercent,
      sqliteDiv, round2, strLe_AB, str_ne_AB, str_ne_BA, q1le]

/-- C6: query 1 returns at most 5 rows, sorted by revenue descending;
tied rows (equal displayed revenue) keep the stable relative order of the
grouped base table (`q1base`), stated as: the tied rows of the output
form a sublist of the tied rows of the base, in base order. -/
theorem c6_top_categories (tbl : List AggregateRow) :
    (query1 tbl).length ≤ 5 ∧ List.Sorted q1le (query1 tbl) ∧
      ∀ v : ℚ, List.Sublist ((query1 tbl).filter (fun r => r.revenue = v))
        ((q1base tbl).filter (fun r => r.revenue = v)) := by
  refine ⟨?_, ?_, ?_⟩
  · unfold query1
    exact List.length_take_le 5 _
  · unfold query1
    exact List.Pairwise.sublist (List.take_sublist 5 _) (List.sorted_insertionSort q1le _)
  · intro v
    have heq := filter_insertionSort_eq q1le (q1base tbl) (fun r => decide (r.revenue = v))
      (fun a b ha hb => by
        have ha2 : a.revenue = v := of_decide_eq_true ha
        have hb2 : b.revenue = v := of_decide_eq_true hb
        show b.revenue ≤ a.revenue
        rw [ha2, hb2])
    unfold query1
    rw [← heq]
    exact (List.take_sublist 5 _).filter _

/-- C7: every region whose full-precision revenue sum is ≤ 0 is excluded
from query 3 (its rounded alias is then also ≤ 0, failing
`HAVING revenue > 0`), and the result has at most 3 rows sorted by
margin_percent descending. -/
theorem c7_top_regions (tbl : List AggregateRow) (reg : String)
    (hneg : regSales tbl reg ≤ 0) (row : Q3Row) (hrow : row ∈ query3 tbl) :
    row.region ≠ reg ∧ (query3 tbl).length ≤ 3 ∧ List.Sorted q3le (query3 tbl) := by
  obtain ⟨hr, hpos, -⟩ := mem_query3 hrow
  have hrev : row.revenue = round2 (regSales tbl row.region) :=
    (congrArg Q3Row.revenue hr).trans rfl
  refine ⟨?_, ?_, ?_⟩
  · intro heq
    rw [heq] at hrev
    rw [hrev] at hpos
    exact absurd hpos (not_lt.mpr (round2_nonpos hneg))
  · unfold query3
    exact List.length_take_le 3 _
  · unfold query3
    exact List.Pairwise.sublist (List.take_sublist 3 _) (List.sorted_insertionSort q3le _)

/-- Witness for C7 at the concrete table `tblN` (region "E" has revenue
-5 and is excluded; region "W" is returned). -/
theorem c7_witness :
    regSales tblN "E" ≤ 0 ∧ q3row tblN "W" ∈ query3 tblN ∧
      ((q3row tblN "W").region ≠ "E" ∧ (query3 tblN).length ≤ 3 ∧
        List.Sorted q3le (query3 tblN)) := by
  have hneg : regSales tblN "E" ≤ 0 := by
    norm_num [regSales, tblN, str_ne_WE]
  have m : q3row tblN "W" ∈ query3 tblN := by
    rw [query3_tblN_eval]
    exact List.mem_singleton_self _
  exact ⟨hneg, m, c7_top_regions tblN "E" hneg (q3row tblN "W") m⟩

/-- C8: unique_orders of an aggregate row is at most the number of
contributing transactions of its group, with equality exactly when no
order id repeats within the group. -/
theorem c8_unique_orders (xs : List Transaction) (row : AggregateRow)
    (h : row ∈ daily_agg xs) :
    row.unique_orders ≤ (groupTxns xs (row.date, row.category, row.region)).length ∧
      (row.unique_orders = (groupTxns xs (row.date, row.category, row.region)).length ↔
        ((groupTxns xs (row.date, row.category, row.region)).map Transaction.orderId).Nodup) := by
  obtain ⟨k, hrow, hkey, -⟩ := mem_daily_agg h
  subst hrow
  rw [hkey]
  have hlen : ((groupTxns xs k).map Transaction.orderId).length = (groupTxns xs k).length :=
    List.length_map _ _
  constructor
  · have h1 : ((groupTxns xs k).map Transaction.orderId).dedup.length
        ≤ ((groupTxns xs k).map Transaction.orderId).length :=
      (List.dedup_sublist _).length_le
    exact le_trans h1 (le_of_eq hlen)
  · constructor
    · intro heq
      have heq2 : ((groupTxns xs k).map Transaction.orderId).dedup.length
          = ((groupTxns xs k).map Transaction.orderId).length := by
        rw [hlen]
        exact heq
      have hd : ((groupTxns xs k).map Transaction.orderId).dedup
          = (groupTxns xs k).map Transaction.orderId :=
        (List.dedup_sublist _).eq_of_length heq2
      exact List.dedup_eq_self.mp hd
    · intro hnd
      show ((groupTxns xs k).map Transaction.orderId).dedup.length = _
      rw [List.dedup_eq_self.mpr hnd, hlen]

/-- Witness for C8 at the one-transaction input `xsW`. -/
theorem c8_witness :
    rowW ∈ daily_agg xsW ∧
      (rowW.unique_orders ≤ (groupTxns xsW (rowW.date, rowW.category, rowW.region)).length ∧
        (rowW.unique_orders = (groupTxns xsW (rowW.date, rowW.category, rowW.region)).length ↔
          ((groupTxns xsW (rowW.date, rowW.category, rowW.region)).map
            Transaction.orderId).Nodup)) := by
  have m : rowW ∈ daily_agg xsW := by
    rw [daily_agg_xsW_eval]
    exact List.mem_singleton_self rowW
  exact ⟨m, c8_unique_orders xsW rowW m⟩

/-- C9: an empty transaction set aggregates to the empty table, and each
of the three query shapes then returns the empty result set; no error is
possible since every stage is a total function. -/
theorem c9_empty_input :
    daily_agg [] = [] ∧ query1 (daily_agg []) = [] ∧ query2 (daily_agg []) = [] ∧
      query3 (daily_agg []) = [] :=
  ⟨rfl, rfl, rfl, rfl⟩

/-- C10: every aggregate row comes from a nonempty group, so
unique_orders ≥ 1, the contributing-row count is ≥ 1, and the means are
the sums divided by that positive count — the division never has a zero
denominator. -/
theorem c10_no_zero_division (xs : List Transaction) (row : AggregateRow)
    (h : row ∈ daily_agg xs) :
    1 ≤ row.unique_orders ∧
      1 ≤ (groupTxns xs (row.date, row.category, row.region)).length ∧
      row.avg_sales = row.total_sales
        / ((groupTxns xs (row.date, row.category, row.region)).length : ℚ) ∧
      row.avg_profit = row.total_profit
        / ((groupTxns xs (row.date, row.category, row.region)).length : ℚ) := by
  obtain ⟨k, hrow, hkey, hne⟩ := mem_daily_agg h
  subst hrow
  rw [hkey]
  obtain ⟨t, ht⟩ := List.exists_mem_of_ne_nil _ hne
  have h1 : t.orderId ∈ (groupTxns xs k).map Transaction.orderId :=
    List.mem_map_of_mem Transaction.orderId ht
  have h2 : t.orderId ∈ ((groupTxns xs k).map Transaction.orderId).dedup :=
    List.mem_dedup.mpr h1
  exact ⟨List.length_pos.mpr (List.ne_nil_of_mem h2), List.length_pos.mpr hne, rfl, rfl⟩

/-- Witness for C10 at the one-transaction input `xsW`. -/
theorem c10_witness :
    rowW ∈ daily_agg xsW ∧
      (1 ≤ rowW.unique_orders ∧
        1 ≤ (groupTxns xsW (rowW.date, rowW.category, rowW.region)).length ∧
        rowW.avg_sales = rowW.total_sales
          / ((groupTxns xsW (rowW.date, rowW.category, rowW.region)).length : ℚ) ∧
        rowW.avg_profit = rowW.total_profit
          / ((groupTxns xsW (rowW.date, rowW.category, rowW.region)).length : ℚ)) := by
  have m : rowW ∈ daily_agg xsW := by
    rw [daily_agg_xsW_eval]
    exact List.mem_singleton_self rowW
  exact ⟨m, c10_no_zero_division xsW rowW m⟩
